import Mathlib

/-
Verification of the profit_scout_pipeline ratio-calculation engine.

The definitions below are a shallow embedding of the Python sources:

  * jobs/ratio_calculator/src/main.py        (the "jobs" implementation)
  * services/ratio_calculator/src/ratio_calculator.py  (the "services" implementation)
  * jobs/financial_extraction/src/main.py    (the field consolidator)

Calendar dates are modelled as integer day numbers, so BigQuery DATE_DIFF
and Python timedelta arithmetic become integer arithmetic.  Python floats
are modelled as rationals plus explicit NaN and infinity markers.  Library
exceptions are modelled with Except or with explicit outcome types.
-/

set_option maxHeartbeats 1000000

namespace ProfitScout

/-- Calendar dates as day numbers since an arbitrary epoch. -/
abbrev Day := Int

/-! ## String keys used throughout the sources -/

def kPriceTrendRatio : String := "price_trend_ratio"

def kGrossMargin : String := "gross_margin"

def kDataSource : String := "data_source"

def kCreatedAt : String := "created_at"

def kTicker : String := "ticker"

def kAccessionNumber : String := "accession_number"

def kReportEndDate : String := "report_end_date"

def kFiledDate : String := "filed_date"

def kBigquery : String := "bigquery"

def kResolved : String := "resolved"

def kNone : String := "none"

/-- The fixed ratio-name list RATIOS (jobs main.py lines 62-66, services
ratio_calculator.py lines 49-53). -/
def RATIOS : List String :=
  ["debt_to_equity", "fcf_yield", "current_ratio", "roe",
   "gross_margin", "operating_margin", "quick_ratio", "eps",
   "eps_change", "revenue_growth", "price_trend_ratio"]

/-! ## Period Resolver (fetch_bigquery_data, jobs lines 255-378 and
services lines 139-238)

A financial-statement row is abstracted to its period_end_date plus an
identifier distinguishing rows; the payload columns play no role in the
tier selection being verified. -/

structure FinRecord where
  period_end_date : Day
  rid : Nat
deriving DecidableEq, Repr

/-- Rows of the store whose period_end_date lies BETWEEN lo AND hi. -/
def windowFilter (db : List FinRecord) (lo hi : Day) : List FinRecord :=
  db.filter (fun r => decide (lo ≤ r.period_end_date ∧ r.period_end_date ≤ hi))

/-- ORDER BY ABS(DATE_DIFF(period_end_date, target, DAY)) ASC LIMIT 1. -/
def closestTo (target : Day) (rows : List FinRecord) : Option FinRecord :=
  rows.argmin (fun r => |r.period_end_date - target|)

/-- Which tier of the tiered search produced the returned record. -/
inductive Tier
| exact
| fallback
| priorWindow
deriving DecidableEq, Repr

/-- jobs fetch_bigquery_data (main.py lines 321-378): tier 1 (exact match,
lines 321-331) and tier 2 (plus or minus 30 days ordered by distance, lines
333-350) run unconditionally; tier 3 (lines 352-374: retarget to red - 90,
window plus or minus 30 around it, ordered by distance to the retargeted
date) runs only when prior_period is true and tiers 1-2 found nothing. -/
def fetch_bigquery_data_jobs (db : List FinRecord) (red : Day) (prior_period : Bool) :
    Option (Tier × FinRecord) :=
  match (db.filter (fun r => decide (r.period_end_date = red))).head? with
  | some r => some (Tier.exact, r)
  | none =>
    match closestTo red (windowFilter db (red - 30) (red + 30)) with
    | some r => some (Tier.fallback, r)
    | none =>
      match prior_period with
      | true =>
        (closestTo (red - 90) (windowFilter db (red - 120) (red - 60))).map
          (fun r => (Tier.priorWindow, r))
      | false => none

/-- services fetch_bigquery_data (ratio_calculator.py lines 139-238): when
prior_period is true the only query issued is over the window
[red - 90 - 45, red - 90 + 45] ordered by distance to red - 90 (lines
171-181); otherwise an exact-match query (window [red, red], lines 183-201)
runs first and the plus or minus 30 day fallback (lines 203-230) runs only
when it is empty. -/
def fetch_bigquery_data_services (db : List FinRecord) (red : Day) (prior_period : Bool) :
    Option (Tier × FinRecord) :=
  match prior_period with
  | true =>
    (closestTo (red - 90) (windowFilter db (red - 135) (red - 45))).map
      (fun r => (Tier.priorWindow, r))
  | false =>
    match closestTo red (windowFilter db red red) with
    | some r => some (Tier.exact, r)
    | none =>
      (closestTo red (windowFilter db (red - 30) (red + 30))).map
        (fun r => (Tier.fallback, r))

/-! ### Helper lemmas about the resolver building blocks -/

theorem mem_windowFilter {db : List FinRecord} {lo hi : Day} {r : FinRecord} :
    r ∈ windowFilter db lo hi ↔ r ∈ db ∧ lo ≤ r.period_end_date ∧ r.period_end_date ≤ hi := by
  simp [windowFilter, List.mem_filter]

theorem closestTo_mem {t : Day} {rows : List FinRecord} {r : FinRecord}
    (h : closestTo t rows = some r) : r ∈ rows := by
  simp only [closestTo] at h
  exact List.argmin_mem h

theorem closestTo_min {t : Day} {rows : List FinRecord} {r : FinRecord}
    (h : closestTo t rows = some r) :
    ∀ s ∈ rows, |r.period_end_date - t| ≤ |s.period_end_date - t| := by
  intro s hs
  simp only [closestTo] at h
  exact List.le_of_mem_argmin (f := fun q => |q.period_end_date - t|) hs h

theorem closestTo_eq_none {t : Day} {rows : List FinRecord}
    (h : closestTo t rows = none) : rows = [] := by
  simpa [closestTo] using h

theorem closestTo_isSome {t : Day} {rows : List FinRecord} (h : rows ≠ []) :
    (closestTo t rows).isSome := by
  rcases ho : closestTo t rows with _ | r
  · exact absurd (closestTo_eq_none ho) h
  · rfl

/-- A store holding exactly one row, dated at the requested target date. -/
def dbPriorDemo : List FinRecord := [{ period_end_date := 100, rid := 0 }]

/-- Claim C1, counterexample: in the jobs implementation a prior-period call
(prior_period = true) still runs tier 1 first and here returns the tier-1
exact-match candidate, whose period_end_date 100 lies outside the retargeted
window [red - 120, red - 60] = [-20, 40]; the claim says a prior-period call
never returns a tier-1 or tier-2 candidate. -/
theorem c1_counterexample :
    fetch_bigquery_data_jobs dbPriorDemo 100 true
      = some (Tier.exact, { period_end_date := 100, rid := 0 }) ∧
    Tier.exact ≠ Tier.priorWindow ∧
    ¬((100 : Day) - 120 ≤ (100 : Day) ∧ (100 : Day) ≤ (100 : Day) - 60) := by
  refine ⟨rfl, by decide, by decide⟩

/-- Claim C1, amended: in the services implementation a prior-period call
searches only the window of 45 days around target - 90, ordered by absolute
day-distance to the retargeted date, and never returns a tier-1 or tier-2
candidate; the jobs implementation runs tiers 1 and 2 unconditionally first,
and its retargeted window [target - 120, target - 60] is reached only when
both earlier tiers are empty. -/
theorem c1_amended :
    (∀ (db : List FinRecord) (red : Day) (t : Tier) (r : FinRecord),
        fetch_bigquery_data_services db red true = some (t, r) →
        t = Tier.priorWindow ∧
        red - 135 ≤ r.period_end_date ∧ r.period_end_date ≤ red - 45 ∧
        ∀ s ∈ db, red - 135 ≤ s.period_end_date → s.period_end_date ≤ red - 45 →
          |r.period_end_date - (red - 90)| ≤ |s.period_end_date - (red - 90)|) ∧
    (∀ (db : List FinRecord) (red : Day) (r : FinRecord),
        fetch_bigquery_data_jobs db red true = some (Tier.priorWindow, r) →
        (∀ s ∈ db, s.period_end_date ≠ red) ∧
        windowFilter db (red - 30) (red + 30) = [] ∧
        red - 120 ≤ r.period_end_date ∧ r.period_end_date ≤ red - 60 ∧
        ∀ s ∈ db, red - 120 ≤ s.period_end_date → s.period_end_date ≤ red - 60 →
          |r.period_end_date - (red - 90)| ≤ |s.period_end_date - (red - 90)|) := by
  constructor
  · intro db red t r h
    simp only [fetch_bigquery_data_services] at h
    rcases Option.map_eq_some'.mp h with ⟨r0, hr0, hpair⟩
    rw [Prod.mk.injEq] at hpair
    obtain ⟨ht, hr⟩ := hpair
    subst ht
    subst hr
    have hbounds := (mem_windowFilter.mp (closestTo_mem hr0)).2
    refine ⟨rfl, hbounds.1, hbounds.2, ?_⟩
    intro s hs hlo hhi
    exact closestTo_min hr0 s (mem_windowFilter.mpr ⟨hs, hlo, hhi⟩)
  · intro db red r h
    simp only [fetch_bigquery_data_jobs] at h
    split at h
    · simp at h
    · rename_i hexact
      split at h
      · simp at h
      · rename_i hfb
        rcases Option.map_eq_some'.mp h with ⟨r0, hr0, hpair⟩
        rw [Prod.mk.injEq] at hpair
        obtain ⟨-, hr⟩ := hpair
        subst hr
        have hfilter : db.filter (fun q => decide (q.period_end_date = red)) = [] :=
          List.head?_eq_none_iff.mp hexact
        have hnoexact : ∀ s ∈ db, s.period_end_date ≠ red := by
          intro s hs
          have := List.filter_eq_nil_iff.mp hfilter s hs
          simpa using this
        have hwin : windowFilter db (red - 30) (red + 30) = [] := closestTo_eq_none hfb
        have hbounds := (mem_windowFilter.mp (closestTo_mem hr0)).2
        refine ⟨hnoexact, hwin, hbounds.1, hbounds.2, ?_⟩
        intro s hs hlo hhi
        exact closestTo_min hr0 s (mem_windowFilter.mpr ⟨hs, hlo, hhi⟩)

/-- Witness for c1_amended at a concrete store: one record dated day 10,
requested date day 100, prior-period call against the services resolver. -/
theorem c1_witness :
    Tier.priorWindow = Tier.priorWindow ∧
    (100 : Day) - 135 ≤ ({ period_end_date := 10, rid := 5 } : FinRecord).period_end_date ∧
    ({ period_end_date := 10, rid := 5 } : FinRecord).period_end_date ≤ (100 : Day) - 45 := by
  have h := c1_amended.1 [{ period_end_date := 10, rid := 5 }] 100 Tier.priorWindow
    { period_end_date := 10, rid := 5 } rfl
  exact ⟨h.1, h.2.1, h.2.2.1⟩

/-- Claim C9: for current-period requests (prior_period = false), in both
implementations, whenever some stored record matches the target date exactly
the resolver returns an exact-match record and never a fallback candidate;
the fallback window of 30 days, ordered by absolute day-distance with the
closest taken, is consulted only when no exact match exists. -/
theorem c9_exact_match_priority :
    (∀ (db : List FinRecord) (red : Day) (t : Tier) (r : FinRecord),
        (∃ e ∈ db, e.period_end_date = red) →
        (fetch_bigquery_data_jobs db red false = some (t, r) →
            t = Tier.exact ∧ r.period_end_date = red) ∧
        (fetch_bigquery_data_services db red false = some (t, r) →
            t = Tier.exact ∧ r.period_end_date = red)) ∧
    (∀ (db : List FinRecord) (red : Day),
        (∃ e ∈ db, e.period_end_date = red) →
        (fetch_bigquery_data_jobs db red false).isSome ∧
        (fetch_bigquery_data_services db red false).isSome) ∧
    (∀ (db : List FinRecord) (red : Day) (t : Tier) (r : FinRecord),
        (∀ e ∈ db, e.period_end_date ≠ red) →
        (fetch_bigquery_data_jobs db red false = some (t, r) ∨
         fetch_bigquery_data_services db red false = some (t, r)) →
        t = Tier.fallback ∧
        red - 30 ≤ r.period_end_date ∧ r.period_end_date ≤ red + 30 ∧
        ∀ s ∈ db, red - 30 ≤ s.period_end_date → s.period_end_date ≤ red + 30 →
          |r.period_end_date - red| ≤ |s.period_end_date - red|) := by
  have hexactfilter : ∀ (db : List FinRecord) (red : Day),
      (∃ e ∈ db, e.period_end_date = red) →
      db.filter (fun q => decide (q.period_end_date = red)) ≠ [] := by
    intro db red ⟨e, he, hdate⟩ hnil
    have := List.filter_eq_nil_iff.mp hnil e he
    simp [hdate] at this
  have hexactwin : ∀ (db : List FinRecord) (red : Day),
      (∃ e ∈ db, e.period_end_date = red) → windowFilter db red red ≠ [] := by
    intro db red ⟨e, he, hdate⟩ hnil
    have : e ∈ windowFilter db red red :=
      mem_windowFilter.mpr ⟨he, le_of_eq hdate.symm, le_of_eq hdate⟩
    rw [hnil] at this
    exact absurd this (List.not_mem_nil e)
  refine ⟨?_, ?_, ?_⟩
  · intro db red t r hex
    constructor
    · intro h
      simp only [fetch_bigquery_data_jobs] at h
      split at h
      · rename_i r0 hhead
        rw [Option.some.injEq, Prod.mk.injEq] at h
        obtain ⟨ht, hr⟩ := h
        subst ht
        subst hr
        have hmem := List.mem_of_mem_head? hhead
        have := (List.mem_filter.mp hmem).2
        exact ⟨rfl, by simpa using this⟩
      · rename_i hhead
        exact absurd (List.head?_eq_none_iff.mp hhead) (hexactfilter db red hex)
    · intro h
      simp only [fetch_bigquery_data_services] at h
      split at h
      · rename_i r0 hclose
        rw [Option.some.injEq, Prod.mk.injEq] at h
        obtain ⟨ht, hr⟩ := h
        subst ht
        subst hr
        have hb := (mem_windowFilter.mp (closestTo_mem hclose)).2
        exact ⟨rfl, le_antisymm hb.2 hb.1⟩
      · rename_i hclose
        exact absurd (closestTo_eq_none hclose) (hexactwin db red hex)
  · intro db red hex
    constructor
    · simp only [fetch_bigquery_data_jobs]
      split
      · rfl
      · rename_i hhead
        exact absurd (List.head?_eq_none_iff.mp hhead) (hexactfilter db red hex)
    · simp only [fetch_bigquery_data_services]
      split
      · rfl
      · rename_i hclose
        exact absurd (closestTo_eq_none hclose) (hexactwin db red hex)
  · intro db red t r hno h
    have hfilnil : db.filter (fun q => decide (q.period_end_date = red)) = [] := by
      rw [List.filter_eq_nil_iff]
      intro s hs
      simpa using hno s hs
    have hwinnil : windowFilter db red red = [] := by
      rw [windowFilter, List.filter_eq_nil_iff]
      intro s hs
      have := hno s hs
      simp only [decide_eq_true_eq, not_and]
      intro h1 h2
      exact this (le_antisymm h2 h1)
    have hfromclose : ∀ r0 : FinRecord,
        closestTo red (windowFilter db (red - 30) (red + 30)) = some r0 →
        red - 30 ≤ r0.period_end_date ∧ r0.period_end_date ≤ red + 30 ∧
        ∀ s ∈ db, red - 30 ≤ s.period_end_date → s.period_end_date ≤ red + 30 →
          |r0.period_end_date - red| ≤ |s.period_end_date - red| := by
      intro r0 hc
      have hb := (mem_windowFilter.mp (closestTo_mem hc)).2
      refine ⟨hb.1, hb.2, ?_⟩
      intro s hs hlo hhi
      exact closestTo_min hc s (mem_windowFilter.mpr ⟨hs, hlo, hhi⟩)
    rcases h with h | h
    · simp only [fetch_bigquery_data_jobs, hfilnil, List.head?_nil] at h
      split at h
      · rename_i r0 hclose
        rw [Option.some.injEq, Prod.mk.injEq] at h
        obtain ⟨ht, hr⟩ := h
        subst ht
        subst hr
        exact ⟨rfl, hfromclose r0 hclose⟩
      · simp at h
    · have hcnil : closestTo red ([] : List FinRecord) = none := rfl
      simp only [fetch_bigquery_data_services, hwinnil, hcnil] at h
      rcases Option.map_eq_some'.mp h with ⟨r0, hr0, hpair⟩
      rw [Prod.mk.injEq] at hpair
      obtain ⟨ht, hr⟩ := hpair
      subst ht
      subst hr
      exact ⟨rfl, hfromclose r0 hr0⟩

/-- A store holding the exact-match record at day 100 and a fallback
candidate at day 110 (the T and T + 10 scenario from the spec). -/
def dbExactDemo : List FinRecord :=
  [{ period_end_date := 110, rid := 1 }, { period_end_date := 100, rid := 0 }]

/-- Witness for c9_exact_match_priority: with candidates at day 100 (= T)
and day 110 (= T + 10) the jobs resolver returns the exact candidate. -/
theorem c9_witness :
    Tier.exact = Tier.exact ∧
    ({ period_end_date := 100, rid := 0 } : FinRecord).period_end_date = (100 : Day) := by
  have h := (c9_exact_match_priority.1 dbExactDemo 100 Tier.exact
    { period_end_date := 100, rid := 0 }
    ⟨{ period_end_date := 100, rid := 0 }, by decide, rfl⟩).1
  exact h rfl

/-! ## Python values

A Python float is a rational together with explicit NaN and infinity
markers.  A Python value, as it can occur in the heterogeneous records and
in parsed JSON, carries the information the cleaned/adjusted code paths
branch on.  For strings and arbitrary objects the result of the runtime
float(...) coercion is carried as data (none when the coercion raises). -/

inductive PyFloat
| fin (q : ℚ)
| nan
| inf
deriving DecidableEq, Repr

inductive PyVal
| pynone
| pydate (iso : String)
| pydec (q : ℚ)
| pyint (n : Int)
| pyfloat (f : PyFloat)
| pystr (s : String) (asFloat : Option PyFloat)
| pyobj (asFloat : Option PyFloat) (reprStr : String)
deriving DecidableEq, Repr

/-- pd.isna: true for None and for float NaN. -/
def pd_isna : PyVal → Bool
| .pynone => true
| .pyfloat .nan => true
| _ => false

/-! ## Numeric Sanitizer (clean_data_for_json)

jobs main.py lines 383-429; services ratio_calculator.py lines 242-277. -/

/-- Key exclusion set of the jobs implementation (main.py line 387). -/
def exclude_keys_jobs : List String :=
  ["ticker", "period_end_date", "reported_currency", "bq_report_end_date"]

/-- Key exclusion set of the services implementation (lines 247-251). -/
def exclude_keys_services : List String :=
  ["ticker", "period_end_date", "reported_currency", "date_diff_rank",
   "bq_report_end_date", "date_diff_days", "load_timestamp",
   "filing_source_url", "cik"]

/-- Per-value branch of the jobs clean_data_for_json (lines 394-422):
nulls and NaN are dropped by the pd.isna check, dates become ISO strings,
Decimal becomes float, ints stay ints, infinite floats are dropped, and
every remaining value falls to the str(v) fallback and is KEPT as a
string. -/
def cleanValue_jobs : PyVal → Option PyVal
| .pynone => none
| .pyfloat .nan => none
| .pydate iso => some (.pystr iso none)
| .pydec q => some (.pyfloat (.fin q))
| .pyint n => some (.pyint n)
| .pyfloat .inf => none
| .pyfloat (.fin q) => some (.pyfloat (.fin q))
| .pystr s p => some (.pystr s p)
| .pyobj _ r => some (.pystr r none)

/-- Per-value branch of the services clean_data_for_json (lines 252-275):
same as the jobs one except that strings are kept by an explicit
isinstance(v, (str, bool)) branch and unknown objects are float-coerced
when they expose a float conversion, else kept via str(v). -/
def cleanValue_services : PyVal → Option PyVal
| .pynone => none
| .pyfloat .nan => none
| .pydate iso => some (.pystr iso none)
| .pydec q => some (.pyfloat (.fin q))
| .pyint n => some (.pyint n)
| .pyfloat .inf => none
| .pyfloat (.fin q) => some (.pyfloat (.fin q))
| .pystr s p => some (.pystr s p)
| .pyobj af r =>
  match af with
  | some (.fin q) => some (.pyfloat (.fin q))
  | some _ => none
  | none => some (.pystr r none)

/-- jobs clean_data_for_json over an input record given as key-value list. -/
def clean_data_for_json_jobs (data : List (String × PyVal)) : List (String × PyVal) :=
  data.filterMap (fun kv =>
    if kv.1 ∈ exclude_keys_jobs then none
    else (cleanValue_jobs kv.2).map (fun v => (kv.1, v)))

/-- services clean_data_for_json over an input record. -/
def clean_data_for_json_services (data : List (String × PyVal)) : List (String × PyVal) :=
  data.filterMap (fun kv =>
    if kv.1 ∈ exclude_keys_services then none
    else (cleanValue_services kv.2).map (fun v => (kv.1, v)))

/-- A value is a finite number (the only kind the claim allows in the
sanitized output). -/
def isFiniteNumeric : PyVal → Bool
| .pyint _ => true
| .pyfloat (.fin _) => true
| _ => false

/-- Claim C5: the claim (and the module unit test
test_allows_only_numeric_and_skips_invalid) requires the sanitized output
to contain only finite numeric values, with non-coercible values dropped;
the code instead KEEPS non-numeric strings.  This theorem evaluates both
implementations at the failing input: the key with string value hello
survives sanitization even though it is not a finite numeric value, while
the NaN/None keys of the claim example are dropped as claimed. -/
theorem c5_sanitizer_on_failing_input :
    clean_data_for_json_services
        [("a", PyVal.pyfloat .nan), ("b", PyVal.pyfloat (.fin 5)), ("c", PyVal.pynone),
         ("string", PyVal.pystr ("hello") none)]
      = [("b", PyVal.pyfloat (.fin 5)), ("string", PyVal.pystr ("hello") none)] ∧
    clean_data_for_json_jobs [("string", PyVal.pystr ("hello") none)]
      = [("string", PyVal.pystr ("hello") none)] ∧
    isFiniteNumeric (PyVal.pystr ("hello") none) = false := by
  refine ⟨rfl, rfl, rfl⟩

/-! ## Scale validation and repair (adjust_ratio_scale)

services ratio_calculator.py lines 281-346; jobs main.py lines 434-451. -/

/-- The expected_ranges table of the services implementation (lines
303-315). -/
def expected_ranges : String → Option (ℚ × ℚ)
| "debt_to_equity" => some (-5, 20)
| "fcf_yield" => some (-1, 1/2)
| "current_ratio" => some (1/20, 15)
| "roe" => some (-2, 2)
| "gross_margin" => some (-1, 1)
| "operating_margin" => some (-2, 1)
| "quick_ratio" => some (1/20, 12)
| "eps" => some (-100, 500)
| "eps_change" => some (-20, 20)
| "revenue_growth" => some (-1, 10)
| "price_trend_ratio" => some (1/5, 5)
| _ => none

/-- Ratio names eligible for the divide-by-100 percentage repair (services
line 330). -/
def margin_like : List String :=
  ["gross_margin", "operating_margin", "roe", "fcf_yield"]

/-- Numeric coercion step of the services adjust_ratio_scale (lines
284-296): strings are float-parsed, ints and floats convert, every other
type is rejected as unexpected. -/
def toFloatValue_services : PyVal → Option PyFloat
| .pyint n => some (.fin n)
| .pyfloat f => some f
| .pystr _ p => p
| _ => none

/-- Numeric coercion of the jobs adjust_ratio_scale (line 441, a bare
float(ratio) in a try block): also accepts Decimal and float-convertible
objects; dates raise and yield None. -/
def toFloatValue_jobs : PyVal → Option PyFloat
| .pyint n => some (.fin n)
| .pyfloat f => some f
| .pydec q => some (.fin q)
| .pystr _ p => p
| .pyobj af _ => af
| _ => none

/-- services adjust_ratio_scale (lines 281-346): validate, then if the
value is outside the expected range and the name is margin-like and the
magnitude is in (1.5, 200], divide by 100 and keep the quotient only if it
lands inside the range; otherwise pass the original value through. -/
def adjust_ratio_scale_services (ratio : PyVal) (name : String) : Option ℚ :=
  match ratio with
  | .pynone => none
  | v =>
    match toFloatValue_services v with
    | none => none
    | some .nan => none
    | some .inf => none
    | some (.fin x) =>
      match expected_ranges name with
      | none => some x
      | some (lo, hi) =>
        if lo ≤ x ∧ x ≤ hi then some x
        else if name ∈ margin_like then
          if 3/2 < |x| ∧ |x| ≤ 200 then
            if lo ≤ x / 100 ∧ x / 100 ≤ hi then some (x / 100) else some x
          else some x
        else some x

/-- jobs adjust_ratio_scale (main.py lines 434-451): a pure
validator/converter with no range table and no repair heuristic; every
finite value passes through unchanged. -/
def adjust_ratio_scale_jobs (ratio : PyVal) (name : String) : Option ℚ :=
  match name, ratio with
  | _, .pynone => none
  | _, v =>
    if pd_isna v then none
    else
      match toFloatValue_jobs v with
      | none => none
      | some .nan => none
      | some .inf => none
      | some (.fin x) => some x

/-- Claim C4, counterexample: the claim fixes adjust(55.0, gross_margin) =
0.55, but the jobs implementation named in the claim sources has no range
table and returns 55.0 unchanged. -/
theorem c4_counterexample :
    adjust_ratio_scale_jobs (PyVal.pyfloat (.fin 55)) kGrossMargin = some 55 ∧
    (55 : ℚ) ≠ 11/20 := by
  refine ⟨rfl, by norm_num⟩

/-- Claim C4, amended: the services adjust_ratio_scale behaves exactly as
the claim states (in-range values unchanged; margin-like out-of-range
values with magnitude in (1.5, 200] divided by 100 and kept only if the
quotient is in range; all other out-of-range values unchanged; 55 maps to
0.55 and 900 stays 900), while the jobs implementation returns every
finite value unchanged with no repair heuristic. -/
theorem c4_amended :
    (∀ (x lo hi : ℚ) (name : String), expected_ranges name = some (lo, hi) →
        (lo ≤ x ∧ x ≤ hi →
          adjust_ratio_scale_services (.pyfloat (.fin x)) name = some x) ∧
        (¬(lo ≤ x ∧ x ≤ hi) → name ∈ margin_like → 3/2 < |x| ∧ |x| ≤ 200 →
          adjust_ratio_scale_services (.pyfloat (.fin x)) name
            = some (if lo ≤ x / 100 ∧ x / 100 ≤ hi then x / 100 else x)) ∧
        (¬(lo ≤ x ∧ x ≤ hi) → name ∈ margin_like → ¬(3/2 < |x| ∧ |x| ≤ 200) →
          adjust_ratio_scale_services (.pyfloat (.fin x)) name = some x) ∧
        (¬(lo ≤ x ∧ x ≤ hi) → name ∉ margin_like →
          adjust_ratio_scale_services (.pyfloat (.fin x)) name = some x)) ∧
    adjust_ratio_scale_services (.pyfloat (.fin 55)) kGrossMargin = some (11/20) ∧
    adjust_ratio_scale_services (.pyfloat (.fin 900)) kGrossMargin = some 900 ∧
    (∀ x : ℚ, ∀ name : String,
        adjust_ratio_scale_jobs (.pyfloat (.fin x)) name = some x) := by
  refine ⟨?_, by norm_num [adjust_ratio_scale_services, kGrossMargin,
    expected_ranges, margin_like, toFloatValue_services], by
    norm_num [adjust_ratio_scale_services, kGrossMargin,
      expected_ranges, margin_like, toFloatValue_services],
    fun x name => rfl⟩
  intro x lo hi name hrange
  have hunfold : adjust_ratio_scale_services (.pyfloat (.fin x)) name
      = (if lo ≤ x ∧ x ≤ hi then some x
        else if name ∈ margin_like then
          if 3/2 < |x| ∧ |x| ≤ 200 then
            if lo ≤ x / 100 ∧ x / 100 ≤ hi then some (x / 100) else some x
          else some x
        else some x) := by
    simp only [adjust_ratio_scale_services, toFloatValue_services, hrange]
  refine ⟨?_, ?_, ?_, ?_⟩
  · intro hin
    rw [hunfold, if_pos hin]
  · intro hout hmem hmag
    rw [hunfold, if_neg hout, if_pos hmem, if_pos hmag, apply_ite some]
  · intro hout hmem hmag
    rw [hunfold, if_neg hout, if_pos hmem, if_neg hmag]
  · intro hout hmem
    rw [hunfold, if_neg hout, if_neg hmem]

/-- Witness for c4_amended: gross_margin with the in-range value one half
passes through unchanged. -/
theorem c4_witness :
    adjust_ratio_scale_services (.pyfloat (.fin (1/2))) kGrossMargin = some (1/2) := by
  have h := (c4_amended.1 (1/2) (-1) 1 kGrossMargin rfl).1
  exact h (by norm_num)

/-! ## Ratio Engine external-computation step (calculate_ratios_with_gemini)

jobs main.py lines 457-546; services ratio_calculator.py lines 350-471. -/

/-- Ratio names requested from the external computation (everything but
price_trend_ratio; jobs line 474, services line 447). -/
def ratios_to_calculate : List String :=
  RATIOS.filter (fun r => decide (r ≠ kPriceTrendRatio))

/-- Outcome of the external computation call, as the code branches on it:
an API-level failure, an empty response, text without JSON object markers,
text whose JSON decoding fails, JSON that is not a mapping, or a parsed
mapping. -/
inductive GeminiResp
| apiError
| emptyText
| noJsonObject
| badJson
| nonMapping
| mapping (kvs : List (String × PyVal))
deriving DecidableEq, Repr

/-- dict.get with default None. -/
def pyDictGet (kvs : List (String × PyVal)) (k : String) : PyVal :=
  match kvs.find? (fun kv => kv.1 == k) with
  | some kv => kv.2
  | none => .pynone

/-- The malformed-output cases of the claim: unparseable as a JSON object,
or parsed but not a mapping. -/
def GeminiResp.malformed : GeminiResp → Bool
| .emptyText => true
| .noJsonObject => true
| .badJson => true
| .nonMapping => true
| _ => false

/-- jobs calculate_ratios_with_gemini (lines 457-546).  All response
failures, the API call included, are caught inside the function body
(lines 535-541 catch ValueError and every other Exception), so the
function always returns: the requested ratios from the parsed mapping run
through adjust_ratio_scale, every failure path yields all-None, and the
separately computed price_trend_ratio value from the current record is
appended (line 544) after its own adjust_ratio_scale pass. -/
def calculate_ratios_with_gemini_jobs (current : List (String × PyVal))
    (resp : GeminiResp) : Except Unit (List (String × Option ℚ)) :=
  if current.isEmpty then .ok (RATIOS.map (fun k => (k, none)))
  else
    let ptrValue := pyDictGet current kPriceTrendRatio
    let out : List (String × Option ℚ) :=
      match resp with
      | .mapping kvs =>
        ratios_to_calculate.map
          (fun name => (name, adjust_ratio_scale_jobs (pyDictGet kvs name) name))
      | _ => ratios_to_calculate.map (fun name => (name, none))
    .ok (out ++ [(kPriceTrendRatio, adjust_ratio_scale_jobs ptrValue kPriceTrendRatio)])

/-- services calculate_ratios_with_gemini (lines 350-471).  The
pre-calculated (already adjusted) price trend value is read from the
current record (line 359).  GoogleAPICallError is re-raised (line 465) and
escapes after the retry policy; every other failure, malformed output
included, is caught at line 466 and turned into the all-None fallback with
the price trend value preserved (lines 469-471). -/
def calculate_ratios_with_gemini_services (currentPresent : Bool)
    (ptrValue : Option ℚ) (resp : GeminiResp) :
    Except Unit (List (String × Option ℚ)) :=
  match currentPresent with
  | false => .ok (RATIOS.map (fun k => (k, none)))
  | true =>
    match resp with
    | .apiError => .error ()
    | .mapping kvs =>
      .ok ((ratios_to_calculate.map
            (fun name => (name, adjust_ratio_scale_services (pyDictGet kvs name) name)))
          ++ [(kPriceTrendRatio, ptrValue)])
    | _ =>
      .ok ((ratios_to_calculate.map (fun name => (name, none)))
          ++ [(kPriceTrendRatio, ptrValue)])

/-- Contribution to the gemini_errors counter made by the caller
process_filing: it increments only when the call raises (jobs lines
679-683, services lines 636-639). -/
def gemini_errors_delta (result : Except Unit (List (String × Option ℚ))) : Nat :=
  match result with
  | .ok _ => 0
  | .error _ => 1

/-- A concrete current record: one revenue figure plus the independently
computed price trend value eleven tenths. -/
def currentDemo : List (String × PyVal) :=
  [("total_revenue", PyVal.pyfloat (.fin 1000)),
   ("price_trend_ratio", PyVal.pyfloat (.fin (11/10)))]

/-- Claim C7, counterexample: on undecodable JSON the jobs engine returns
the all-unknown ratio set with price_trend_ratio preserved, as the claim
says, but the dedicated computation-failure counter receives no increment
(the parse failure is swallowed inside the function, which returns
normally), contradicting the claim that it is incremented. -/
theorem c7_counterexample :
    calculate_ratios_with_gemini_jobs currentDemo GeminiResp.badJson
      = .ok ((ratios_to_calculate.map (fun name => (name, none)))
          ++ [(kPriceTrendRatio, some (11/10))]) ∧
    gemini_errors_delta (calculate_ratios_with_gemini_jobs currentDemo GeminiResp.badJson)
      = 0 ∧
    (0 : Nat) ≠ 1 := by
  refine ⟨rfl, rfl, by decide⟩

/-- Claim C7, amended: on malformed external output (empty text, no JSON
object, undecodable JSON, or a non-mapping) both implementations return
normally with the fixed ratio set all-unknown except price_trend_ratio,
which keeps its independently computed value, and the computation-failure
counter is NOT incremented; that counter increments only when the call
raises, as the services implementation does on API errors. -/
theorem c7_amended :
    (∀ (current : List (String × PyVal)) (ptrValue : Option ℚ) (resp : GeminiResp),
        resp.malformed = true →
        current.isEmpty = false →
        calculate_ratios_with_gemini_jobs current resp
          = .ok ((ratios_to_calculate.map (fun name => (name, none)))
              ++ [(kPriceTrendRatio,
                   adjust_ratio_scale_jobs (pyDictGet current kPriceTrendRatio)
                     kPriceTrendRatio)]) ∧
        calculate_ratios_with_gemini_services true ptrValue resp
          = .ok ((ratios_to_calculate.map (fun name => (name, none)))
              ++ [(kPriceTrendRatio, ptrValue)]) ∧
        gemini_errors_delta (calculate_ratios_with_gemini_jobs current resp) = 0 ∧
        gemini_errors_delta (calculate_ratios_with_gemini_services true ptrValue resp)
          = 0) ∧
    (∀ ptrValue : Option ℚ,
        calculate_ratios_with_gemini_services true ptrValue GeminiResp.apiError
          = .error () ∧
        gemini_errors_delta
          (calculate_ratios_with_gemini_services true ptrValue GeminiResp.apiError)
          = 1) := by
  constructor
  · intro current ptrValue resp hmal hne
    have hjobs : calculate_ratios_with_gemini_jobs current resp
        = .ok ((ratios_to_calculate.map (fun name => (name, none)))
            ++ [(kPriceTrendRatio,
                 adjust_ratio_scale_jobs (pyDictGet current kPriceTrendRatio)
                   kPriceTrendRatio)]) := by
      cases resp <;> simp_all [calculate_ratios_with_gemini_jobs,
        GeminiResp.malformed]
    have hserv : calculate_ratios_with_gemini_services true ptrValue resp
        = .ok ((ratios_to_calculate.map (fun name => (name, none)))
            ++ [(kPriceTrendRatio, ptrValue)]) := by
      cases resp <;> simp_all [calculate_ratios_with_gemini_services,
        GeminiResp.malformed]
    exact ⟨hjobs, hserv, by rw [hjobs]; rfl, by rw [hserv]; rfl⟩
  · intro ptrValue
    exact ⟨rfl, rfl⟩

/-- Witness for c7_amended at a concrete malformed response. -/
theorem c7_witness :
    gemini_errors_delta
      (calculate_ratios_with_gemini_jobs currentDemo GeminiResp.nonMapping) = 0 := by
  have h := (c7_amended.1 currentDemo (some (11/10)) GeminiResp.nonMapping rfl rfl).2.2.1
  exact h

/-! ## Orchestrator counters (process_filing / run loop)

jobs main.py lines 600-712 and 737-757; services ratio_calculator.py lines
550-670 and 723-757.  The four shared counters are processed (successful
insert), insert_errors (persistence failure), gemini_errors (the external
computation call raised) and other_errors/processing_errors. -/

structure Counters where
  processed : Nat
  insert_errors : Nat
  gemini_errors : Nat
  other_errors : Nat
deriving DecidableEq, Repr

def Counters.zero : Counters := ⟨0, 0, 0, 0⟩

def addCounters (a b : Counters) : Counters :=
  ⟨a.processed + b.processed, a.insert_errors + b.insert_errors,
   a.gemini_errors + b.gemini_errors, a.other_errors + b.other_errors⟩

/-- Sum of all four counters. -/
def Counters.total (c : Counters) : Nat :=
  c.processed + c.insert_errors + c.gemini_errors + c.other_errors

/-- Per-filing observable events of one process_filing run: whether the
essential identity fields were present, whether current financial data was
found, whether the external computation call raised out of
calculate_ratios_with_gemini, and whether the persistence insert raised
after its retries. -/
structure FilingSim where
  valid : Bool
  curFound : Bool
  geminiRaises : Bool
  insertRaises : Bool
deriving DecidableEq, Repr

/-- Counter increments produced by one process_filing call (jobs lines
611-712): a missing-identity filing counts one other_error and stops
(lines 611-615); a raising computation call counts one gemini_error (line
683) and processing CONTINUES to the insert; the insert then counts either
one processed (line 705) or one insert_error (line 711).  The services
version (lines 558-670) has the same shape with processing_errors in place
of other_errors. -/
def process_filing_deltas (f : FilingSim) : Counters :=
  match f.valid with
  | false => ⟨0, 0, 0, 1⟩
  | true =>
    let g : Nat := if f.curFound && f.geminiRaises then 1 else 0
    match f.insertRaises with
    | true => ⟨0, 1, g, 0⟩
    | false => ⟨1, 0, g, 0⟩

/-- The whole run: the worker pool folds every per-filing contribution into
the lock-protected counters (jobs lines 737-757). -/
def run_batch (fs : List FilingSim) : Counters :=
  fs.foldl (fun acc f => addCounters acc (process_filing_deltas f)) Counters.zero

theorem addCounters_zero_left (c : Counters) : addCounters Counters.zero c = c := by
  simp [addCounters, Counters.zero]

theorem addCounters_assoc (a b c : Counters) :
    addCounters (addCounters a b) c = addCounters a (addCounters b c) := by
  simp [addCounters, Nat.add_assoc]

theorem addCounters_zero_right (c : Counters) : addCounters c Counters.zero = c := by
  simp [addCounters, Counters.zero]

theorem run_batch_cons (f : FilingSim) (fs : List FilingSim) :
    run_batch (f :: fs) = addCounters (process_filing_deltas f) (run_batch fs) := by
  have key : ∀ (l : List FilingSim) (acc : Counters),
      l.foldl (fun a q => addCounters a (process_filing_deltas q)) acc
        = addCounters acc (run_batch l) := by
    intro l
    induction l with
    | nil =>
      intro acc
      simp [run_batch, addCounters_zero_right]
    | cons q l ih =>
      intro acc
      have hrb : run_batch (q :: l)
          = addCounters (process_filing_deltas q) (run_batch l) := by
        have h1 : run_batch (q :: l)
            = l.foldl (fun a p => addCounters a (process_filing_deltas p))
                (addCounters Counters.zero (process_filing_deltas q)) := rfl
        rw [h1, ih, addCounters_zero_left]
      rw [List.foldl_cons, ih, hrb, addCounters_assoc]
  have h1 : run_batch (f :: fs)
      = fs.foldl (fun a p => addCounters a (process_filing_deltas p))
          (addCounters Counters.zero (process_filing_deltas f)) := rfl
  rw [h1, key, addCounters_zero_left]

/-- A batch of one filing whose computation call raised but whose insert
succeeded. -/
def batchDemo : List FilingSim :=
  [{ valid := true, curFound := true, geminiRaises := true, insertRaises := false }]

/-- Claim C2, counterexample: a single filing whose external computation
call raises and whose insert then succeeds receives TWO counter increments
(gemini_errors and processed), so for this batch of N = 1 filings the four
counters sum to 2, not N. -/
theorem c2_counterexample :
    (run_batch batchDemo).total = 2 ∧
    batchDemo.length = 1 ∧
    (2 : Nat) ≠ 1 := by
  refine ⟨rfl, rfl, by decide⟩

/-- Claim C2, amended: every filing increments exactly one of processed,
insert_errors and other_errors, so those three sum to N; the gemini_errors
counter is an additional increment taken on top of one of the others, so
the four counters sum to N plus the number of filings whose computation
call raised (with current data present), which exceeds N whenever such a
filing occurs. -/
theorem c2_amended :
    ∀ fs : List FilingSim,
      (run_batch fs).processed + (run_batch fs).insert_errors
          + (run_batch fs).other_errors = fs.length ∧
      (run_batch fs).total
        = fs.length + (fs.filter (fun f => f.valid && f.curFound && f.geminiRaises)).length := by
  intro fs
  induction fs with
  | nil => exact ⟨rfl, rfl⟩
  | cons f fs ih =>
    rw [run_batch_cons]
    rcases ih with ⟨ih1, ih2⟩
    constructor
    · simp only [addCounters, List.length_cons]
      rcases f with ⟨v, c, g, i⟩
      cases v <;> cases c <;> cases g <;> cases i <;>
        simp [process_filing_deltas] <;> omega
    · simp only [Counters.total, addCounters, List.length_cons] at ih2 ⊢
      rcases f with ⟨v, c, g, i⟩
      cases v <;> cases c <;> cases g <;> cases i <;>
        simp [process_filing_deltas, List.filter] <;> omega

/-! ## Persistence row (process_filing row build and insert_row_to_bigquery)

jobs main.py lines 552-594 (insert) and 689-712 (row build and insert
call). -/

/-- A cell of the row sent to the ratio table. -/
inductive CellVal
| s (v : String)
| num (q : ℚ)
| null
deriving DecidableEq, Repr

/-- A row is a key-value mapping (keys unique by construction). -/
abbrev Row := List (String × CellVal)

def rowGet (row : Row) (k : String) : Option CellVal :=
  (row.find? (fun kv => kv.1 == k)).map (fun kv => kv.2)

def cellOfOpt : Option ℚ → CellVal
| some q => CellVal.num q
| none => CellVal.null

/-- The row dict built by the jobs process_filing (lines 690-698): the
filing identity, the final ratios dict (which always holds exactly the
eleven RATIOS keys), the data_source tag — the string bigquery when
current data was found, none otherwise — and the creation timestamp. -/
def build_row_jobs (tkr acc rd fd : String) (ratios : String → Option ℚ)
    (curFound : Bool) (createdAt : String) : Row :=
  [(kTicker, CellVal.s tkr), (kAccessionNumber, CellVal.s acc),
   (kReportEndDate, CellVal.s rd), (kFiledDate, CellVal.s fd)]
  ++ RATIOS.map (fun k => (k, cellOfOpt (ratios k)))
  ++ [(kDataSource, CellVal.s (match curFound with
        | true => kBigquery
        | false => kNone)),
      (kCreatedAt, CellVal.s createdAt)]

/-- Outcome of one insert_row_to_bigquery call. -/
inductive InsertOutcome
| inserted (r : Row)
| skippedAllNull
| failed
deriving DecidableEq, Repr

/-- The clean_row built by the jobs insert_row_to_bigquery (lines 555-571):
every RATIOS key is present, with missing or invalid values made explicit
nulls, and every non-ratio field is copied through. -/
def insert_clean_row (row : Row) : Row :=
  (RATIOS.map (fun name => (name,
      match rowGet row name with
      | some (CellVal.num q) => CellVal.num q
      | _ => CellVal.null)))
  ++ row.filter (fun kv => decide (kv.1 ∉ RATIOS))

/-- jobs insert_row_to_bigquery (lines 552-594): when every one of the
eleven ratio values is null the function RETURNS WITHOUT INSERTING (lines
574-576); otherwise it appends the cleaned row, raising on backend
failure.  The bqFails flag models the backend insert raising. -/
def insert_row_to_bigquery_jobs (bqFails : Bool) (row : Row) : InsertOutcome :=
  let clean := insert_clean_row row
  if RATIOS.all (fun name => decide (rowGet clean name = some CellVal.null)) then
    InsertOutcome.skippedAllNull
  else
    match bqFails with
    | true => InsertOutcome.failed
    | false => InsertOutcome.inserted clean

/-- The rows actually appended to the ratio store by one insert call. -/
def persistedRows : InsertOutcome → List Row
| .inserted r => [r]
| _ => []

theorem rowGet_ratio_build (tkr acc rd fd createdAt : String)
    (ratios : String → Option ℚ) (curFound : Bool) (name : String)
    (h : name ∈ RATIOS) :
    rowGet (build_row_jobs tkr acc rd fd ratios curFound createdAt) name
      = some (cellOfOpt (ratios name)) := by
  simp only [RATIOS, List.mem_cons, List.not_mem_nil, or_false] at h
  rcases h with rfl | rfl | rfl | rfl | rfl | rfl | rfl | rfl | rfl | rfl | rfl <;> rfl

theorem rowGet_clean_build (tkr acc rd fd createdAt : String)
    (ratios : String → Option ℚ) (curFound : Bool) (name : String)
    (h : name ∈ RATIOS) :
    rowGet (insert_clean_row (build_row_jobs tkr acc rd fd ratios curFound createdAt))
        name
      = some (cellOfOpt (ratios name)) := by
  have hmid : rowGet
      (insert_clean_row (build_row_jobs tkr acc rd fd ratios curFound createdAt)) name
      = some (match rowGet (build_row_jobs tkr acc rd fd ratios curFound createdAt) name
          with
          | some (CellVal.num q) => CellVal.num q
          | _ => CellVal.null) := by
    simp only [RATIOS, List.mem_cons, List.not_mem_nil, or_false] at h
    rcases h with rfl | rfl | rfl | rfl | rfl | rfl | rfl | rfl | rfl | rfl | rfl <;> rfl
  rw [hmid, rowGet_ratio_build tkr acc rd fd createdAt ratios curFound name h]
  cases hr : ratios name <;> simp [cellOfOpt]

/-- The all-null ratio assignment. -/
def ratiosAllNull : String → Option ℚ := fun _ => none

/-- A concrete row for a filing with current data found and every ratio
unknown. -/
def rowAllNullDemo : Row :=
  build_row_jobs ("AAPL") ("000123000456") ("2023-03-31") ("2023-05-01")
    ratiosAllNull true ("2023-05-02T00:00:00Z")

/-- Claim C3, counterexample: a filing whose eleven ratio values are all
null is NOT persisted — the jobs insert_row_to_bigquery returns without
inserting any row — and the data-source tag written for a resolved filing
is the string bigquery, not the string resolved the claim names. -/
theorem c3_counterexample :
    insert_row_to_bigquery_jobs false rowAllNullDemo = InsertOutcome.skippedAllNull ∧
    persistedRows (insert_row_to_bigquery_jobs false rowAllNullDemo) = [] ∧
    rowGet rowAllNullDemo kDataSource = some (CellVal.s kBigquery) ∧
    kBigquery ≠ kResolved := by
  refine ⟨rfl, rfl, rfl, by decide⟩

/-- Claim C3, amended: when at least one of the eleven ratios is non-null,
the filing is persisted as exactly one appended row that carries the
filing identity keyed by accession_number, all eleven ratio values with
explicit nulls, a data-source tag equal to bigquery or none, and the
creation timestamp; but when all eleven ratios are null the jobs
implementation skips the insert entirely and persists nothing. -/
theorem c3_amended :
    ∀ (tkr acc rd fd createdAt : String) (ratios : String → Option ℚ)
      (curFound : Bool),
      ((∀ name ∈ RATIOS, ratios name = none) →
        insert_row_to_bigquery_jobs false
            (build_row_jobs tkr acc rd fd ratios curFound createdAt)
          = InsertOutcome.skippedAllNull ∧
        persistedRows (insert_row_to_bigquery_jobs false
            (build_row_jobs tkr acc rd fd ratios curFound createdAt)) = []) ∧
      (∀ name0 ∈ RATIOS, ∀ q : ℚ, ratios name0 = some q →
        persistedRows (insert_row_to_bigquery_jobs false
            (build_row_jobs tkr acc rd fd ratios curFound createdAt))
          = [insert_clean_row (build_row_jobs tkr acc rd fd ratios curFound createdAt)] ∧
        (∀ name ∈ RATIOS,
          rowGet (insert_clean_row
              (build_row_jobs tkr acc rd fd ratios curFound createdAt)) name
            = some (cellOfOpt (ratios name))) ∧
        rowGet (insert_clean_row
            (build_row_jobs tkr acc rd fd ratios curFound createdAt)) kAccessionNumber
          = some (CellVal.s acc) ∧
        rowGet (insert_clean_row
            (build_row_jobs tkr acc rd fd ratios curFound createdAt)) kTicker
          = some (CellVal.s tkr) ∧
        rowGet (insert_clean_row
            (build_row_jobs tkr acc rd fd ratios curFound createdAt)) kDataSource
          = some (CellVal.s (match curFound with
              | true => kBigquery
              | false => kNone)) ∧
        rowGet (insert_clean_row
            (build_row_jobs tkr acc rd fd ratios curFound createdAt)) kCreatedAt
          = some (CellVal.s createdAt)) := by
  intro tkr acc rd fd createdAt ratios curFound
  set row := build_row_jobs tkr acc rd fd ratios curFound createdAt with hrow
  constructor
  · intro hnull
    have hall : RATIOS.all
        (fun name => decide (rowGet (insert_clean_row row) name = some CellVal.null))
        = true := by
      rw [List.all_eq_true]
      intro name hmem
      rw [hrow, rowGet_clean_build tkr acc rd fd createdAt ratios curFound name hmem,
        hnull name hmem]
      simp [cellOfOpt]
    have hskip : insert_row_to_bigquery_jobs false row = InsertOutcome.skippedAllNull := by
      simp only [insert_row_to_bigquery_jobs, hall, if_true]
    exact ⟨hskip, by rw [hskip]; rfl⟩
  · intro name0 hmem0 q hq
    have hall : RATIOS.all
        (fun name => decide (rowGet (insert_clean_row row) name = some CellVal.null))
        = false := by
      rw [List.all_eq_false]
      refine ⟨name0, hmem0, ?_⟩
      rw [hrow, rowGet_clean_build tkr acc rd fd createdAt ratios curFound name0 hmem0,
        hq]
      simp [cellOfOpt]
    have hins : insert_row_to_bigquery_jobs false row
        = InsertOutcome.inserted (insert_clean_row row) := by
      simp only [insert_row_to_bigquery_jobs, hall]
      rfl
    refine ⟨by rw [hins]; rfl, ?_, ?_, ?_, ?_, ?_⟩
    · intro name hmem
      rw [hrow]
      exact rowGet_clean_build tkr acc rd fd createdAt ratios curFound name hmem
    · rw [hrow]; rfl
    · rw [hrow]; rfl
    · rw [hrow]; rfl
    · rw [hrow]; rfl

/-- Witness for c3_amended: concrete filing with one known ratio; the
cleaned row is inserted and keyed by the accession number. -/
theorem c3_witness :
    rowGet (insert_clean_row (build_row_jobs ("AAPL") ("000123000456")
        ("2023-03-31") ("2023-05-01") (fun _ => some 1) true
        ("2023-05-02T00:00:00Z"))) kAccessionNumber
      = some (CellVal.s ("000123000456")) := by
  have h := ((c3_amended ("AAPL") ("000123000456") ("2023-03-31") ("2023-05-01")
      ("2023-05-02T00:00:00Z") (fun _ => some 1) true).2 ("roe") (by decide) 1 rfl)
  exact h.2.2.1

/-! ## Price Lookup and Price Trend (get_price_on_or_before and the PTR
block of process_filing)

jobs main.py lines 213-249 (lookup) and 621-646 (trend); services
ratio_calculator.py lines 106-135 and 574-596. -/

/-- One price-series row: date and optional adjusted close. -/
structure PriceRow where
  pdate : Day
  adj_close : Option ℚ
deriving DecidableEq, Repr

/-- get_price_on_or_before: most recent row with date at most the target
and at least target minus 7; the row price is returned when present, None
when the row price is missing or no row exists in the window. -/
def get_price_on_or_before (prices : List PriceRow) (target : Day) : Option ℚ :=
  let window := prices.filter
    (fun p => decide (target - 7 ≤ p.pdate ∧ p.pdate ≤ target))
  match window.argmax (fun p => p.pdate) with
  | none => none
  | some p => p.adj_close

/-- The price-trend block of process_filing (jobs lines 621-646): prices 20
and 50 days before the filed date; their quotient when both exist and the
denominator is nonzero, unknown otherwise. -/
def price_trend_ratio_calc (prices : List PriceRow) (filedDate : Day) : Option ℚ :=
  let p20 := get_price_on_or_before prices (filedDate - 20)
  let p50 := get_price_on_or_before prices (filedDate - 50)
  match p20, p50 with
  | some a, some b => if b ≠ 0 then some (a / b) else none
  | _, _ => none

/-- Claim C8: trend returns price(filed - 20d) / price(filed - 50d),
returns unknown whenever either lookup misses or the denominator is zero,
and each lookup really is the most recent in-window stored price. -/
theorem c8_price_trend :
    (∀ (prices : List PriceRow) (fd : Day) (a b : ℚ),
        get_price_on_or_before prices (fd - 20) = some a →
        get_price_on_or_before prices (fd - 50) = some b →
        b ≠ 0 →
        price_trend_ratio_calc prices fd = some (a / b)) ∧
    (∀ (prices : List PriceRow) (fd : Day),
        (get_price_on_or_before prices (fd - 20) = none ∨
         get_price_on_or_before prices (fd - 50) = none ∨
         get_price_on_or_before prices (fd - 50) = some 0) →
        price_trend_ratio_calc prices fd = none) ∧
    (∀ (prices : List PriceRow) (t : Day) (q : ℚ),
        get_price_on_or_before prices t = some q →
        ∃ p ∈ prices, p.adj_close = some q ∧ t - 7 ≤ p.pdate ∧ p.pdate ≤ t ∧
          ∀ p2 ∈ prices, t - 7 ≤ p2.pdate → p2.pdate ≤ t → p2.pdate ≤ p.pdate) := by
  refine ⟨?_, ?_, ?_⟩
  · intro prices fd a b h20 h50 hb
    simp only [price_trend_ratio_calc, h20, h50, if_pos hb]
  · intro prices fd h
    rcases h with h | h | h
    · simp only [price_trend_ratio_calc, h]
    · simp only [price_trend_ratio_calc, h]
      rcases hq : get_price_on_or_before prices (fd - 20) with _ | a <;> simp [hq]
    · simp only [price_trend_ratio_calc, h]
      rcases hq : get_price_on_or_before prices (fd - 20) with _ | a <;> simp [hq]
  · intro prices t q h
    simp only [get_price_on_or_before] at h
    rcases hm : (prices.filter
        (fun p => decide (t - 7 ≤ p.pdate ∧ p.pdate ≤ t))).argmax
          (fun p => p.pdate) with _ | p
    · rw [hm] at h
      exact absurd h (by simp)
    · rw [hm] at h
      have hmem := List.argmax_mem hm
      have hmemf := List.mem_filter.mp hmem
      have hb : t - 7 ≤ p.pdate ∧ p.pdate ≤ t := by
        have := hmemf.2
        simpa using this
      refine ⟨p, hmemf.1, h, hb.1, hb.2, ?_⟩
      intro p2 hp2 hlo hhi
      exact List.le_of_mem_argmax
        (List.mem_filter.mpr ⟨hp2, by simpa using And.intro hlo hhi⟩) hm

/-- A concrete price series with price 110 twenty days and price 100 fifty
days before a filing dated day 0. -/
def pricesDemo : List PriceRow :=
  [{ pdate := -20, adj_close := some 110 }, { pdate := -50, adj_close := some 100 }]

/-- Witness for c8_price_trend: prices 110 and 100 give trend 110 / 100,
that is 1.10. -/
theorem c8_witness :
    price_trend_ratio_calc pricesDemo 0 = some ((110 : ℚ) / 100) := by
  exact c8_price_trend.1 pricesDemo 0 110 100 rfl rfl (by norm_num)

/-! ## Field Consolidator (consolidate_data)

jobs/financial_extraction/src/main.py lines 97-155. -/

/-- One raw fact column group for a concept: value (None for NaN cells),
period end date (None when the period column is missing or unparsable),
and whether a segment dimension is present. -/
structure RawEntry where
  value : Option ℚ
  period : Option Day
  has_segment : Bool
deriving DecidableEq, Repr

/-- A candidate after the NaN filter (lines 119-129). -/
structure Candidate where
  value : ℚ
  period : Option Day
  has_segment : Bool
deriving DecidableEq, Repr

/-- Candidate extraction (lines 111-129): entries with NaN values are
skipped. -/
def candidatesOf (entries : List RawEntry) : List Candidate :=
  entries.filterMap (fun e => e.value.map (fun v =>
    { value := v, period := e.period, has_segment := e.has_segment }))

/-- The equality test of line 134: pandas timestamps compare equal only
when both sides are real dates and the days agree (None and NaT never
compare equal to anything). -/
def periodMatches (p target : Option Day) : Bool :=
  match p, target with
  | some a, some b => decide (a = b)
  | _, _ => false

/-- The sort key of lines 140 and 143: a missing period sorts below every
real date (Timestamp.min). -/
def periodKey (c : Candidate) : WithBot Day :=
  match c.period with
  | some d => (d : WithBot Day)
  | none => ⊥

/-- sort by period descending, take the first (lines 140-144). -/
def mostRecent (cands : List Candidate) : Option Candidate :=
  cands.argmax periodKey

/-- The per-concept selection of lines 132-144: first candidate matching
the originally requested date; otherwise the most recent among the
unsegmented candidates; otherwise the most recent among all. -/
def consolidate_select (target : Option Day) (cands : List Candidate) :
    Option Candidate :=
  match cands.find? (fun c => periodMatches c.period target) with
  | some c => some c
  | none =>
    let nonseg := cands.filter (fun c => !c.has_segment)
    if nonseg.isEmpty then mostRecent cands else mostRecent nonseg

/-- consolidate_data over concept groups (lines 107-145): one selected
value per concept with at least one candidate; concepts with no candidate
are absent from the output. -/
def consolidate_data (target : Option Day)
    (concepts : List (String × List RawEntry)) : List (String × ℚ) :=
  concepts.filterMap (fun be =>
    (consolidate_select target (candidatesOf be.2)).map (fun c => (be.1, c.value)))

/-- Claim C6: the consolidator picks, per concept, a member candidate
following the three-step tie-break (literal target-date match first,
segmented or not; otherwise most recent unsegmented; otherwise most recent
overall), always picks something when a candidate exists, and omits
concepts with zero candidates. -/
theorem c6_consolidator :
    (∀ (target : Option Day) (cands : List Candidate) (c : Candidate),
        consolidate_select target cands = some c →
        c ∈ cands ∧
        ((∃ m ∈ cands, periodMatches m.period target = true) →
            periodMatches c.period target = true) ∧
        ((∀ m ∈ cands, periodMatches m.period target = false) →
          (∃ n ∈ cands, n.has_segment = false) →
            c.has_segment = false ∧
            ∀ n ∈ cands, n.has_segment = false → periodKey n ≤ periodKey c) ∧
        ((∀ m ∈ cands, periodMatches m.period target = false) →
          (∀ n ∈ cands, n.has_segment = true) →
            ∀ n ∈ cands, periodKey n ≤ periodKey c)) ∧
    (∀ (target : Option Day) (cands : List Candidate),
        cands ≠ [] → (consolidate_select target cands).isSome = true) ∧
    (∀ (target : Option Day) (concepts : List (String × List RawEntry)) (b : String),
        (∀ es, (b, es) ∈ concepts → candidatesOf es = []) →
        b ∉ (consolidate_data target concepts).map Prod.fst) := by
  refine ⟨?_, ?_, ?_⟩
  · intro target cands c h
    simp only [consolidate_select] at h
    split at h
    · rename_i c0 hfind
      rw [Option.some.injEq] at h
      subst h
      have hmem := List.mem_of_find?_eq_some hfind
      have hpred := List.find?_some hfind
      refine ⟨hmem, fun _ => hpred, ?_, ?_⟩
      · intro hno _
        have := hno c0 hmem
        rw [hpred] at this
        exact absurd this (by decide)
      · intro hno _
        have := hno c0 hmem
        rw [hpred] at this
        exact absurd this (by decide)
    · rename_i hfind
      have hnomatch : ∀ m ∈ cands, periodMatches m.period target = false := by
        intro m hm
        have := List.find?_eq_none.mp hfind m hm
        simpa using this
      split at h
      · rename_i hempty
        have hallseg : ∀ n ∈ cands, n.has_segment = true := by
          intro n hn
          have hfe : cands.filter (fun c => !c.has_segment) = [] :=
            List.isEmpty_iff.mp hempty
          have := List.filter_eq_nil_iff.mp hfe n hn
          simpa using this
        simp only [mostRecent] at h
        have hmem := List.argmax_mem h
        refine ⟨hmem, ?_, ?_, ?_⟩
        · intro ⟨m, hm, hmatch⟩
          rw [hnomatch m hm] at hmatch
          exact absurd hmatch (by decide)
        · intro _ ⟨n, hn, hseg⟩
          rw [hallseg n hn] at hseg
          exact absurd hseg (by decide)
        · intro _ _ n hn
          exact List.le_of_mem_argmax hn h
      · rename_i hempty
        simp only [mostRecent] at h
        have hmemf := List.argmax_mem h
        have hmemc := (List.mem_filter.mp hmemf).1
        have hcseg : c.has_segment = false := by
          have := (List.mem_filter.mp hmemf).2
          simpa using this
        refine ⟨hmemc, ?_, ?_, ?_⟩
        · intro ⟨m, hm, hmatch⟩
          rw [hnomatch m hm] at hmatch
          exact absurd hmatch (by decide)
        · intro _ _
          refine ⟨hcseg, ?_⟩
          intro n hn hnseg
          exact List.le_of_mem_argmax
            (List.mem_filter.mpr ⟨hn, by simp [hnseg]⟩) h
        · intro _ hall
          rw [hall c hmemc] at hcseg
          exact absurd hcseg (by decide)
  · intro target cands hne
    simp only [consolidate_select]
    split
    · rfl
    · split
      · rename_i hempty
        rcases hm : mostRecent cands with _ | c
        · simp only [mostRecent] at hm
          exact absurd (List.argmax_eq_none.mp hm) hne
        · rfl
      · rename_i hempty
        rcases hm : mostRecent (cands.filter (fun c => !c.has_segment)) with _ | c
        · simp only [mostRecent] at hm
          have := List.argmax_eq_none.mp hm
          rw [this] at hempty
          exact absurd rfl hempty
        · rfl
  · intro target concepts b hempty hmem
    rw [List.mem_map] at hmem
    rcases hmem with ⟨pair, hpair, hfst⟩
    rw [consolidate_data, List.mem_filterMap] at hpair
    rcases hpair with ⟨be, hbe, hsel⟩
    rcases Option.map_eq_some'.mp hsel with ⟨c, hc, hpc⟩
    have hb : be.1 = b := by rw [← hfst, ← hpc]
    have hbees : (b, be.2) ∈ concepts := by
      rw [← hb]
      exact hbe
    have hnil := hempty be.2 hbees
    rw [hnil] at hc
    exact absurd hc (by simp [consolidate_select, mostRecent])

/-- The three-candidate scenario of the spec: (a) matches the literal
requested date but is segmented, (b) does not match and is unsegmented and
more recent, (c) does not match, is segmented and is the most recent. -/
def candA : Candidate := { value := 5, period := some 100, has_segment := true }

def candB : Candidate := { value := 6, period := some 120, has_segment := false }

def candC : Candidate := { value := 7, period := some 130, has_segment := true }

/-- Witness for c6_consolidator: on the spec scenario the selector returns
candidate (a), the literal-date match. -/
theorem c6_witness :
    periodMatches candA.period (some 100) = true ∧ candA ∈ [candA, candB, candC] := by
  have h := c6_consolidator.1 (some 100) [candA, candB, candC] candA rfl
  exact ⟨h.2.1 ⟨candA, by decide, by decide⟩, h.1⟩

/-! ## Module import of the jobs ratio calculator (C10)

jobs main.py lines 33-43 bind, on both import paths (tenacity importable
or not), exactly the names retry, stop_after_attempt and wait_fixed; the
decorator expression on line 111 also references wait_exponential. -/

/-- Names bound by the from-tenacity import on line 34. -/
def tenacity_import_names : List String :=
  ["retry", "stop_after_attempt", "wait_fixed"]

/-- Names bound by the fallback stub on lines 38-43 when tenacity is
absent. -/
def tenacity_stub_names : List String :=
  ["retry", "stop_after_attempt", "wait_fixed"]

/-- Module-level names bound before line 111 executes: imports (lines
1-31), the tenacity block (lines 33-43), configuration (lines 47-66),
logging setup (lines 72-82), validation lists (lines 86-100) and the
global client slots (lines 106-108). -/
def module_names_before_line111 (tenacityAvailable : Bool) : List String :=
  ["os", "logging", "json", "re", "threading", "time", "concurrent",
   "datetime", "timedelta", "date", "Decimal", "pd", "np", "tqdm",
   "GCP_LIBS_AVAILABLE", "GEMINI_LIB_AVAILABLE", "genai",
   "bigquery", "secretmanager", "exceptions", "google",
   "PROJECT_ID", "BQ_DATASET", "BS_TABLE", "IS_TABLE", "CF_TABLE",
   "PRICE_TABLE", "METADATA_TABLE", "RATIOS_TABLE", "GEMINI_SECRET_NAME",
   "GEMINI_SECRET_VERSION", "GEMINI_MODEL_NAME", "MAX_WORKERS", "RATIOS",
   "LOG_LEVEL", "logger_name", "essential_vars", "missing_vars",
   "BQ_CLIENT", "SECRET_CLIENT", "GEMINI_MODEL"]
  ++ (match tenacityAvailable with
      | true => tenacity_import_names
      | false => tenacity_stub_names)

/-- The names the line-111 decorator expression evaluates, in evaluation
order: the stop argument, then the wait argument, then the retry call. -/
def get_secret_decorator_names : List String :=
  ["stop_after_attempt", "wait_exponential", "retry"]

/-- Module execution up to the get_secret decorator: the first name in the
decorator expression that is unbound raises NameError and aborts the
import. -/
def load_module_jobs (tenacityAvailable : Bool) : Except String Unit :=
  match get_secret_decorator_names.find?
      (fun n => !(module_names_before_line111 tenacityAvailable).contains n) with
  | some n => Except.error ("NameError: name " ++ n ++ " is not defined")
  | none => Except.ok ()

/-- Claim C10: on both import paths (tenacity importable or not) the name
wait_exponential referenced by the get_secret retry decorator is unbound,
so loading the jobs ratio-calculator module always raises NameError before
any filing can be processed. -/
theorem c10_module_import_always_fails :
    load_module_jobs true
      = Except.error ("NameError: name wait_exponential is not defined") ∧
    load_module_jobs false
      = Except.error ("NameError: name wait_exponential is not defined") := by
  refine ⟨rfl, rfl⟩

end ProfitScout
